import Mathlib

/-!
# PlanPilot status-cascade engine: a shallow embedding

This file models the mutation orchestrator of the `planpilot` plugin
(`src/app.rs` together with `src/model.rs`, `src/error.rs`,
`src/entities/*.rs` and the formatting helpers of `src/util.rs`) and
proves properties of the status cascade, the step-ordering engine, the
active-plan registry and the error paths.

Modelling conventions:

* The SQLite store is a `DB` value: one list per table, kept in insertion
  order, plus one autoincrement counter per table.  `i64`/`i32` columns
  become `Int`, timestamps become an abstract `Nat` tick.
* `Utc::now()` is modelled by threading a single `now : Nat` through each
  orchestrator call; the code calls the clock several times inside one
  operation but no property here depends on those sub-tick differences.
* A transaction body is a function `DB → Except AppError (α × DB)`;
  `finalize_transaction` (commit on `Ok`, rollback on `Err`) becomes
  `finalize`, which returns the *original* `DB` on error, exactly the
  observable effect of a rollback.
* Rust's `value.trim().is_empty()` is modelled by `isBlank` (all
  characters whitespace), and `chrono` datetime rendering by `toString`
  of the tick; both are irrelevant to every property proved here beyond
  being fixed pure functions.
-/

namespace PlanPilot

/-- `DecidableEq` for `Except`, so concrete runs can be checked by `decide`. -/
instance {ε α : Type} [DecidableEq ε] [DecidableEq α] : DecidableEq (Except ε α)
  | .error e, .error f =>
    if h : e = f then .isTrue (by rw [h]) else .isFalse (by intro c; cases c; exact h rfl)
  | .error _, .ok _ => .isFalse (by intro c; cases c)
  | .ok _, .error _ => .isFalse (by intro c; cases c)
  | .ok a, .ok b =>
    if h : a = b then .isTrue (by rw [h]) else .isFalse (by intro c; cases c; exact h rfl)

theorem ebind_ok {ε α β : Type} (a : α) (g : α → Except ε β) :
    ((Except.ok a : Except ε α) >>= g) = g a := rfl

theorem ebind_err {ε α β : Type} (e : ε) (g : α → Except ε β) :
    ((Except.error e : Except ε α) >>= g) = .error e := rfl

theorem epure {ε α : Type} (a : α) : (pure a : Except ε α) = .ok a := rfl

theorem ethrow {ε α : Type} (e : ε) : (throw e : Except ε α) = .error e := rfl

/-! ## model.rs: statuses, executors, change payloads -/

/-- `model.rs` `PlanStatus`. -/
inductive PlanStatus | Todo | Done
deriving DecidableEq, Repr

/-- `PlanStatus::as_str`. -/
def PlanStatus.asStr : PlanStatus → String
  | .Todo => "todo"
  | .Done => "done"

/-- `model.rs` `StepStatus`. -/
inductive StepStatus | Todo | Done
deriving DecidableEq, Repr

/-- `StepStatus::as_str`. -/
def StepStatus.asStr : StepStatus → String
  | .Todo => "todo"
  | .Done => "done"

/-- `model.rs` `GoalStatus`. -/
inductive GoalStatus | Todo | Done
deriving DecidableEq, Repr

/-- `GoalStatus::as_str`. -/
def GoalStatus.asStr : GoalStatus → String
  | .Todo => "todo"
  | .Done => "done"

/-- `model.rs` `StepExecutor`. -/
inductive StepExecutor | Ai | Human
deriving DecidableEq, Repr

/-- `StepExecutor::as_str`. -/
def StepExecutor.asStr : StepExecutor → String
  | .Ai => "ai"
  | .Human => "human"

/-- `model.rs` `PlanInput`. -/
structure PlanInput where
  title : String
  content : String
deriving DecidableEq, Repr

/-- `model.rs` `PlanChanges` (every field optional; absent = untouched). -/
structure PlanChanges where
  title : Option String := none
  content : Option String := none
  status : Option PlanStatus := none
  comment : Option String := none
deriving DecidableEq, Repr

/-- `model.rs` `StepChanges`. -/
structure StepChanges where
  content : Option String := none
  status : Option StepStatus := none
  executor : Option StepExecutor := none
  comment : Option String := none
deriving DecidableEq, Repr

/-- `model.rs` `GoalChanges`. -/
structure GoalChanges where
  content : Option String := none
  status : Option GoalStatus := none
  comment : Option String := none
deriving DecidableEq, Repr

/-- `app.rs` `StepInput` (for `add_plan_tree`). -/
structure StepInput where
  content : String
  executor : StepExecutor
  goals : List String
deriving DecidableEq, Repr

/-! ## entities: the four row types -/

/-- `entities/plan.rs` `Model`. -/
structure Plan where
  id : Int
  title : String
  content : String
  status : String
  comment : Option String := none
  last_session_id : Option String := none
  created_at : Nat
  updated_at : Nat
deriving DecidableEq, Repr

/-- `entities/step.rs` `Model`. -/
structure Step where
  id : Int
  plan_id : Int
  content : String
  status : String
  executor : String
  sort_order : Int
  comment : Option String := none
  created_at : Nat
  updated_at : Nat
deriving DecidableEq, Repr

/-- `entities/goal.rs` `Model`. -/
structure Goal where
  id : Int
  step_id : Int
  content : String
  status : String
  comment : Option String := none
  created_at : Nat
  updated_at : Nat
deriving DecidableEq, Repr

/-- `entities/active_plan.rs` `Model`. -/
structure ActivePlan where
  id : Int
  session_id : String
  plan_id : Int
  updated_at : Nat
deriving DecidableEq, Repr

/-- The stored state: one list per table (in row order) plus
autoincrement counters. -/
structure DB where
  plans : List Plan := []
  steps : List Step := []
  goals : List Goal := []
  active_plans : List ActivePlan := []
  next_plan_id : Int := 1
  next_step_id : Int := 1
  next_goal_id : Int := 1
  next_active_plan_id : Int := 1
deriving DecidableEq, Repr

/-- `error.rs` `AppError`, restricted to the two variants this core
produces itself (`Io`/`Db`/`Json` wrap external failures out of scope). -/
inductive AppError
  | NotFound (msg : String)
  | InvalidInput (msg : String)
deriving DecidableEq, Repr

/-- `app.rs` `StepStatusChange`. -/
structure StepStatusChange where
  step_id : Int
  from_status : String
  to_status : String
  reason : String
deriving DecidableEq, Repr

/-- `app.rs` `PlanStatusChange`. -/
structure PlanStatusChange where
  plan_id : Int
  from_status : String
  to_status : String
  reason : String
deriving DecidableEq, Repr

/-- `app.rs` `ActivePlanCleared`. -/
structure ActivePlanCleared where
  plan_id : Int
  reason : String
deriving DecidableEq, Repr

/-- `app.rs` `StatusChanges` (the change log of one orchestrator call). -/
structure StatusChanges where
  steps : List StepStatusChange := []
  plans : List PlanStatusChange := []
  active_plans_cleared : List ActivePlanCleared := []
deriving DecidableEq, Repr

/-- `StatusChanges::merge`. -/
def StatusChanges.merge (a b : StatusChanges) : StatusChanges :=
  { steps := a.steps ++ b.steps
    plans := a.plans ++ b.plans
    active_plans_cleared := a.active_plans_cleared ++ b.active_plans_cleared }

/-- The per-invocation context: the session id threaded into every call
(`App { db, session_id }`). -/
structure Ctx where
  session_id : String
deriving DecidableEq, Repr

/-! ## small pure helpers from app.rs / util.rs -/

/-- Models Rust `value.trim().is_empty()`: true iff every char is whitespace. -/
def isBlank (s : String) : Bool := s.toList.all Char.isWhitespace

/-- `app.rs` `ensure_non_empty`. -/
def ensure_non_empty (label : String) (value : String) : Except AppError Unit :=
  if isBlank value then .error (.InvalidInput (label ++ " cannot be empty")) else .ok ()

/-- `app.rs` `unique_ids`: de-duplicate preserving first-occurrence order. -/
def uniqueIdsGo (seen : List Int) : List Int → List Int
  | [] => []
  | i :: rest => if seen.contains i then uniqueIdsGo seen rest
                 else i :: uniqueIdsGo (i :: seen) rest

/-- `app.rs` `unique_ids`. -/
def unique_ids (ids : List Int) : List Int := uniqueIdsGo [] ids

/-- `app.rs` `join_ids`. -/
def join_ids (ids : List Int) : String :=
  String.intercalate ", " (ids.map toString)

/-- `util.rs` `has_text`. -/
def has_text : Option String → Bool
  | some t => !(isBlank t)
  | none => false

/-- `util.rs` `format_datetime`, abstracted to rendering the tick. -/
def format_datetime (t : Nat) : String := toString t

/-- Models Rust `str::trim_end` (used at the end of `format_step_detail`). -/
def trimEndStr (s : String) : String :=
  String.mk ((s.toList.reverse.dropWhile Char.isWhitespace).reverse)

/-- `util.rs` `format_step_detail`: the rendered detail of one step and
its goals, embedded in the manual-Done-guard error. -/
def format_step_detail (step : Step) (goals : List Goal) : String :=
  let base :=
    "Step ID: " ++ toString step.id ++ "\n" ++
    "Plan ID: " ++ toString step.plan_id ++ "\n" ++
    "Status: " ++ step.status ++ "\n" ++
    "Executor: " ++ step.executor ++ "\n" ++
    "Content: " ++ step.content ++ "\n" ++
    (if has_text step.comment then "Comment: " ++ step.comment.getD "" ++ "\n" else "") ++
    "Created: " ++ format_datetime step.created_at ++ "\n" ++
    "Updated: " ++ format_datetime step.updated_at ++ "\n" ++
    "\n"
  if goals.isEmpty then
    base ++ "Goals: (none)"
  else
    trimEndStr (base ++ "Goals:\n" ++ String.join (goals.map (fun goal =>
      "- [" ++ goal.status ++ "] " ++ goal.content ++ " (goal id " ++ toString goal.id ++ ")\n" ++
      (if has_text goal.comment then "  Comment: " ++ goal.comment.getD "" ++ "\n" else ""))))

/-! ## row-level store primitives -/

/-- `UPDATE steps SET ... WHERE id = r.id` with every column written
(the `clone().into()` full-row updates of the ordering engine). -/
def putStep (db : DB) (r : Step) : DB :=
  { db with steps := db.steps.map fun s => if s.id == r.id then r else s }

/-- Full-row update of a plan row. -/
def putPlan (db : DB) (r : Plan) : DB :=
  { db with plans := db.plans.map fun p => if p.id == r.id then r else p }

/-- Full-row update of a goal row. -/
def putGoal (db : DB) (r : Goal) : DB :=
  { db with goals := db.goals.map fun g => if g.id == r.id then r else g }

/-- Patch the plan row with the given id (partial-column `UPDATE`). -/
def patchPlan (db : DB) (id : Int) (f : Plan → Plan) : DB :=
  { db with plans := db.plans.map fun p => if p.id == id then f p else p }

/-- Patch the step row with the given id. -/
def patchStep (db : DB) (id : Int) (f : Step → Step) : DB :=
  { db with steps := db.steps.map fun s => if s.id == id then f s else s }

/-- `plan::Entity::find_by_id`. -/
def findPlan (db : DB) (id : Int) : Option Plan :=
  db.plans.find? (fun p => p.id == id)

/-- `step::Entity::find_by_id`. -/
def findStep (db : DB) (id : Int) : Option Step :=
  db.steps.find? (fun s => s.id == id)

/-- `goal::Entity::find_by_id`. -/
def findGoal (db : DB) (id : Int) : Option Goal :=
  db.goals.find? (fun g => g.id == id)

/-- The steps of a plan in table order (the unsorted `filter`). -/
def planStepsRaw (db : DB) (pid : Int) : List Step :=
  db.steps.filter (fun s => s.plan_id == pid)

/-- The goals of a step in table order. -/
def stepGoalsRaw (db : DB) (sid : Int) : List Goal :=
  db.goals.filter (fun g => g.step_id == sid)

/-- The `ORDER BY sort_order, id` key. -/
def stepKey (s : Step) : Int ×ₗ Int := toLex (s.sort_order, s.id)

/-- Row comparison used by every step query of the orchestrator. -/
def stepLE (a b : Step) : Prop := stepKey a ≤ stepKey b

instance : DecidableRel stepLE := fun a b => inferInstanceAs (Decidable (stepKey a ≤ stepKey b))

instance : IsTotal Step stepLE := ⟨fun a b => le_total (stepKey a) (stepKey b)⟩

instance : IsTrans Step stepLE := ⟨fun _ _ _ hab hbc => le_trans hab hbc⟩

/-- `ORDER BY sort_order ASC, id ASC` (row keys are distinct whenever ids
are, so any correct sort produces the same list). -/
def sortSteps (l : List Step) : List Step := l.insertionSort stepLE

/-- `ORDER BY id ASC` on goals. -/
def goalLE (a b : Goal) : Prop := a.id ≤ b.id

instance : DecidableRel goalLE := fun a b => inferInstanceAs (Decidable (a.id ≤ b.id))

instance : IsTotal Goal goalLE := ⟨fun a b => le_total a.id b.id⟩

instance : IsTrans Goal goalLE := ⟨fun _ _ _ hab hbc => le_trans hab hbc⟩

/-- Sort goals by id. -/
def sortGoals (l : List Goal) : List Goal := l.insertionSort goalLE

/-- `step::Entity::find().filter(plan_id).order_by(sort_order, id).all()`. -/
def stepsOfPlan (db : DB) (pid : Int) : List Step :=
  sortSteps (planStepsRaw db pid)

/-- `App::goals_for_step_with_conn`: goals of a step ordered by id. -/
def goals_for_step_with_conn (db : DB) (sid : Int) : List Goal :=
  sortGoals (stepGoalsRaw db sid)

/-- `App::next_step_with_conn`: first Todo step by `(sort_order, id)`. -/
def next_step_with_conn (db : DB) (pid : Int) : Option Step :=
  (sortSteps ((planStepsRaw db pid).filter
    (fun s => s.status == StepStatus.Todo.asStr))).head?

/-- `App::next_goal_for_step_with_conn`: first Todo goal by id. -/
def next_goal_for_step_with_conn (db : DB) (sid : Int) : Option Goal :=
  (sortGoals ((stepGoalsRaw db sid).filter
    (fun g => g.status == GoalStatus.Todo.asStr))).head?

/-- `app.rs` `finalize_transaction`: commit the new state on `Ok`,
roll back (return the pre-transaction state) on `Err`. -/
def finalize {α : Type} (db : DB) : Except AppError (α × DB) → (Except AppError α) × DB
  | .ok (a, db') => (.ok a, db')
  | .error e => (.error e, db)

/-! ## active-plan registry and plan touching -/

/-- `App::clear_active_plans_for_plan_with_conn`: report whether the
calling session owned a binding for this plan, then delete every binding
for the plan regardless of owner. -/
def clear_active_plans_for_plan_with_conn (ctx : Ctx) (db : DB) (pid : Int) : Bool × DB :=
  let cleared_current := (db.active_plans.find? (fun a =>
    a.plan_id == pid && a.session_id == ctx.session_id)).isSome
  (cleared_current,
    { db with active_plans := db.active_plans.filter (fun a => !(a.plan_id == pid)) })

/-- `App::touch_plan_with_conn`: stamp the plan with the calling session
and the clock; `NotFound` if the plan row is missing. -/
def touch_plan_with_conn (ctx : Ctx) (now : Nat) (db : DB) (pid : Int) :
    Except AppError DB :=
  if (findPlan db pid).isSome then
    .ok (patchPlan db pid (fun p =>
      { p with last_session_id := some ctx.session_id, updated_at := now }))
  else .error (.NotFound ("plan id " ++ toString pid))

/-- `App::touch_plans_with_conn`. -/
def touch_plans_with_conn (ctx : Ctx) (now : Nat) (db : DB) : List Int → Except AppError DB
  | [] => .ok db
  | pid :: rest => do
    let db' ← touch_plan_with_conn ctx now db pid
    touch_plans_with_conn ctx now db' rest

/-! ## the status cascade -/

/-- `App::refresh_plan_status_with_conn`: recompute a plan's status from
its steps, record a transition when it changes, and on a transition to
Done clear the plan's active bindings (logging the clear only when the
binding belonged to the calling session). -/
def refresh_plan_status_with_conn (ctx : Ctx) (now : Nat) (db : DB) (pid : Int) :
    Except AppError (StatusChanges × DB) :=
  let total := (planStepsRaw db pid).length
  if total == 0 then .ok ({}, db)
  else
    let done := ((planStepsRaw db pid).filter
      (fun s => s.status == StepStatus.Done.asStr)).length
    let status : PlanStatus := if done == total then .Done else .Todo
    match findPlan db pid with
    | none => .error (.NotFound ("plan " ++ toString pid))
    | some plan =>
      if plan.status ≠ status.asStr then
        let reason := if done == total then
          "all steps are done (" ++ toString done ++ "/" ++ toString total ++ ")"
        else
          "steps done " ++ toString done ++ "/" ++ toString total
        let db1 := patchPlan db pid (fun p =>
          { p with status := status.asStr, updated_at := now })
        let rec_ : PlanStatusChange :=
          { plan_id := pid, from_status := plan.status, to_status := status.asStr
            reason := reason }
        if status == PlanStatus.Done then
          let (cleared, db2) := clear_active_plans_for_plan_with_conn ctx db1 pid
          if cleared then
            .ok ({ plans := [rec_]
                   active_plans_cleared := [{ plan_id := pid, reason := "plan marked done" }] },
              db2)
          else .ok ({ plans := [rec_] }, db2)
        else .ok ({ plans := [rec_] }, db1)
      else .ok ({}, db)

/-- `App::refresh_step_status_with_conn`: recompute a step's status from
its goals, record a transition when it changes, then unconditionally
cascade into the plan-level recomputation. -/
def refresh_step_status_with_conn (ctx : Ctx) (now : Nat) (db : DB) (sid : Int) :
    Except AppError (StatusChanges × DB) :=
  let goals := stepGoalsRaw db sid
  if goals.isEmpty then .ok ({}, db)
  else
    let done := (goals.filter (fun g => g.status == GoalStatus.Done.asStr)).length
    let total := goals.length
    let status : StepStatus := if done == total then .Done else .Todo
    match findStep db sid with
    | none => .error (.NotFound ("step " ++ toString sid))
    | some step =>
      let (changes, db1) : StatusChanges × DB :=
        if step.status ≠ status.asStr then
          let reason := if done == total then
            "all goals are done (" ++ toString done ++ "/" ++ toString total ++ ")"
          else
            "goals done " ++ toString done ++ "/" ++ toString total
          ({ steps := [{ step_id := sid, from_status := step.status
                         to_status := status.asStr, reason := reason }] },
            patchStep db sid (fun s => { s with status := status.asStr, updated_at := now }))
        else ({}, db)
      do
        let (plan_changes, db2) ← refresh_plan_status_with_conn ctx now db1 step.plan_id
        return (changes.merge plan_changes, db2)

/-! ## the ordering engine -/

/-- Fold of full-row step writes (each Rust `active.update`). -/
def putSteps (db : DB) (ws : List Step) : DB := ws.foldl putStep db

/-- The loop body of `App::normalize_steps_in_place` (also duplicated
verbatim inside `App::move_step`): assign `idx + 1` to each row in list
order, writing only rows whose `sort_order` differs.  Returns the updated
in-memory list, the store, and the number of rows written. -/
def normalizeGo (now : Nat) : Nat → List Step → DB → Nat → (List Step × DB × Nat)
  | _, [], db, w => ([], db, w)
  | idx, s :: rest, db, w =>
    let desired : Int := ((idx + 1 : Nat) : Int)
    if s.sort_order ≠ desired then
      let s' := { s with sort_order := desired, updated_at := now }
      let (rest', db', w') := normalizeGo now (idx + 1) rest (putStep db s') (w + 1)
      (s' :: rest', db', w')
    else
      let (rest', db', w') := normalizeGo now (idx + 1) rest db w
      (s :: rest', db', w')

/-- `App::normalize_steps_in_place`. -/
def normalize_steps_in_place (now : Nat) (steps : List Step) (db : DB) :
    List Step × DB × Nat :=
  normalizeGo now 0 steps db 0

/-- `App::normalize_steps_for_plan`: re-query the plan's steps sorted by
`(sort_order, id)` and normalize them; also exposes the write count. -/
def normalize_steps_for_plan (now : Nat) (db : DB) (pid : Int) : DB × Nat :=
  let (_, db', w) := normalize_steps_in_place now (stepsOfPlan db pid) db
  (db', w)

/-! ## orchestrator operations -/

/-- Validate a batch of text fields in order (`for c in &contents`). -/
def ensure_all (label : String) : List String → Except AppError Unit
  | [] => .ok ()
  | c :: rest => do
    ensure_non_empty label c
    ensure_all label rest

/-- `App::add_plan`: insert a Todo plan stamped with the session.  The
row is built directly instead of re-selecting `last_insert_id`. -/
def add_plan (ctx : Ctx) (now : Nat) (input : PlanInput) (db : DB) :
    (Except AppError Plan) × DB :=
  finalize db (do
    ensure_non_empty "plan title" input.title
    ensure_non_empty "plan content" input.content
    let row : Plan :=
      { id := db.next_plan_id, title := input.title, content := input.content
        status := PlanStatus.Todo.asStr, comment := none
        last_session_id := some ctx.session_id, created_at := now, updated_at := now }
    return (row, { db with plans := db.plans ++ [row], next_plan_id := db.next_plan_id + 1 }))

/-- Insert the steps (and their nested goals) of `add_plan_tree`, in
input order, with `sort_order = idx + 1`. -/
def addPlanTreeSteps (now : Nat) (pid : Int) : Nat → List StepInput → DB → (Nat × Nat × DB)
  | _, [], db => (0, 0, db)
  | idx, si :: rest, db =>
    let srow : Step :=
      { id := db.next_step_id, plan_id := pid, content := si.content
        status := StepStatus.Todo.asStr, executor := si.executor.asStr
        sort_order := ((idx + 1 : Nat) : Int), comment := none
        created_at := now, updated_at := now }
    let db1 := { db with steps := db.steps ++ [srow], next_step_id := db.next_step_id + 1 }
    let db2 := si.goals.foldl (fun acc c =>
      { acc with
        goals := acc.goals ++ [{ id := acc.next_goal_id, step_id := srow.id, content := c
                                 status := GoalStatus.Todo.asStr, comment := none
                                 created_at := now, updated_at := now }]
        next_goal_id := acc.next_goal_id + 1 }) db1
    let (sc, gc, db3) := addPlanTreeSteps now pid (idx + 1) rest db2
    (sc + 1, gc + si.goals.length, db3)

/-- `App::add_plan_tree`: validate everything up front, then create the
plan and its subtree in one transaction. -/
def add_plan_tree (ctx : Ctx) (now : Nat) (input : PlanInput) (steps : List StepInput)
    (db : DB) : (Except AppError (Plan × Nat × Nat)) × DB :=
  finalize db (do
    ensure_non_empty "plan title" input.title
    ensure_non_empty "plan content" input.content
    let _ ← steps.foldlM (fun _ si => do
      ensure_non_empty "step content" si.content
      ensure_all "goal content" si.goals) ()
    let prow : Plan :=
      { id := db.next_plan_id, title := input.title, content := input.content
        status := PlanStatus.Todo.asStr, comment := none
        last_session_id := some ctx.session_id, created_at := now, updated_at := now }
    let db1 := { db with plans := db.plans ++ [prow], next_plan_id := db.next_plan_id + 1 }
    let (sc, gc, db2) := addPlanTreeSteps now prow.id 0 steps db1
    return ((prow, sc, gc), db2))

/-- `App::set_active_plan`: single-owner checkout with explicit takeover. -/
def set_active_plan (ctx : Ctx) (now : Nat) (pid : Int) (takeover : Bool) (db : DB) :
    (Except AppError ActivePlan) × DB :=
  match findPlan db pid with
  | none => (.error (.NotFound ("plan id " ++ toString pid)), db)
  | some _ =>
    finalize db (do
      match db.active_plans.find? (fun a => a.plan_id == pid) with
      | some existing =>
        if existing.session_id ≠ ctx.session_id ∧ ¬takeover then
          throw (AppError.InvalidInput ("plan id " ++ toString pid ++
            " is already active in session " ++ existing.session_id ++
            " (use --force to take over)"))
      | none => pure ()
      let db1 := { db with active_plans :=
        db.active_plans.filter (fun a => !(a.session_id == ctx.session_id)) }
      let db2 := { db1 with active_plans :=
        db1.active_plans.filter (fun a => !(a.plan_id == pid)) }
      let row : ActivePlan :=
        { id := db2.next_active_plan_id, session_id := ctx.session_id
          plan_id := pid, updated_at := now }
      let db3 := { db2 with active_plans := db2.active_plans ++ [row]
                            next_active_plan_id := db2.next_active_plan_id + 1 }
      let db4 ← touch_plan_with_conn ctx now db3 pid
      match db4.active_plans.find? (fun a => a.session_id == ctx.session_id) with
      | none => throw (AppError.NotFound "active plan not found after insert")
      | some m => return (m, db4))

/-- `App::clear_active_plan`. -/
def clear_active_plan (ctx : Ctx) (db : DB) : (Except AppError Unit) × DB :=
  (.ok (), { db with active_plans :=
    db.active_plans.filter (fun a => !(a.session_id == ctx.session_id)) })

/-- Apply `PlanChanges` to the stored row (absent fields untouched); the
update always stamps `last_session_id` and `updated_at`. -/
def applyPlanChanges (ctx : Ctx) (now : Nat) (c : PlanChanges) (p : Plan) : Plan :=
  let p := match c.title with | some t => { p with title := t } | none => p
  let p := match c.content with | some t => { p with content := t } | none => p
  let p := match c.status with | some s => { p with status := s.asStr } | none => p
  let p := match c.comment with | some t => { p with comment := some t } | none => p
  { p with last_session_id := some ctx.session_id, updated_at := now }

/-- `App::update_plan_with_conn`: validate text, run the manual-Done
guard against the first pending step, then write the partial update. -/
def update_plan_with_conn (ctx : Ctx) (now : Nat) (db : DB) (id : Int)
    (changes : PlanChanges) : Except AppError (Plan × DB) := do
  match changes.title with
  | some t => ensure_non_empty "plan title" t
  | none => pure ()
  match changes.content with
  | some t => ensure_non_empty "plan content" t
  | none => pure ()
  if changes.status = some PlanStatus.Done then
    let total := (planStepsRaw db id).length
    if total > 0 then
      match next_step_with_conn db id with
      | some pending =>
        throw (AppError.InvalidInput ("cannot mark plan done; next pending step:\n" ++
          format_step_detail pending (goals_for_step_with_conn db pending.id)))
      | none => pure ()
  match findPlan db id with
  | none => throw (AppError.NotFound ("plan id " ++ toString id))
  | some p =>
    let p' := applyPlanChanges ctx now changes p
    return (p', putPlan db p')

/-- `App::update_plan_with_active_clear`: the public plan update; when
the resulting status is Done it also clears the plan's active bindings. -/
def update_plan_with_active_clear (ctx : Ctx) (now : Nat) (id : Int)
    (changes : PlanChanges) (db : DB) : (Except AppError (Plan × Bool)) × DB :=
  finalize db (do
    let (plan, db1) ← update_plan_with_conn ctx now db id changes
    if plan.status == PlanStatus.Done.asStr then
      let (cleared, db2) := clear_active_plans_for_plan_with_conn ctx db1 plan.id
      return ((plan, cleared), db2)
    else
      return ((plan, false), db1))

/-- `App::delete_plan`: delete the active bindings, the subtree, then
the plan; `NotFound` (with rollback) when the plan id does not exist. -/
def delete_plan (id : Int) (db : DB) : (Except AppError Unit) × DB :=
  finalize db (do
    let db1 := { db with active_plans := db.active_plans.filter (fun a => !(a.plan_id == id)) }
    let step_ids := (db1.steps.filter (fun s => s.plan_id == id)).map (·.id)
    let db2 :=
      if step_ids.isEmpty then db1
      else { db1 with
        goals := db1.goals.filter (fun g => !(step_ids.contains g.step_id))
        steps := db1.steps.filter (fun s => !(s.plan_id == id)) }
    if (findPlan db2 id).isSome then
      return ((), { db2 with plans := db2.plans.filter (fun p => !(p.id == id)) })
    else
      throw (AppError.NotFound ("plan id " ++ toString id)))

/-! ## step operations -/

/-- The full-row writes of the shift loop of `App::add_steps_batch`:
walk the (normalized) in-memory list in reverse and bump every row whose
ordinal is at least the insertion index by `shift`. -/
def shiftWrites (now : Nat) (pos : Nat) (shift : Int) (existing : List Step) : List Step :=
  (existing.reverse.filter (fun s => s.sort_order ≥ ((pos : Nat) : Int))).map
    (fun s => { s with sort_order := s.sort_order + shift, updated_at := now })

/-- The insert loop of `App::add_steps_batch`: append the new rows with
consecutive ordinals starting at the insertion index, in input order. -/
def insertStepRows (now : Nat) (pid : Int) (status executor : String) (pos : Nat) :
    Nat → List String → DB → (List Step × DB)
  | _, [], db => ([], db)
  | idx, c :: rest, db =>
    let row : Step :=
      { id := db.next_step_id, plan_id := pid, content := c, status := status
        executor := executor, sort_order := ((pos + idx : Nat) : Int), comment := none
        created_at := now, updated_at := now }
    let db1 := { db with steps := db.steps ++ [row], next_step_id := db.next_step_id + 1 }
    let (rows, db2) := insertStepRows now pid status executor pos (idx + 1) rest db1
    (row :: rows, db2)

/-- The insertion index of `App::add_steps_batch`: 1-based position
clamped into `[1, total + 1]`; `none` means append. -/
def resolveInsertPos (at? : Option Nat) (total : Nat) : Nat :=
  match at? with
  | some pos => if pos > 0 then min pos (total + 1) else 1
  | none => total + 1

/-- `App::add_steps_batch`: normalize, shift the tail up, insert the new
rows, recompute the plan status, touch the plan. -/
def add_steps_batch (ctx : Ctx) (now : Nat) (pid : Int) (contents : List String)
    (status : StepStatus) (executor : StepExecutor) (at? : Option Nat) (db : DB) :
    (Except AppError (List Step × StatusChanges)) × DB :=
  finalize db (do
    if (findPlan db pid).isNone then
      throw (AppError.NotFound ("plan id " ++ toString pid))
    if contents.isEmpty then
      return (([], {}), db)
    ensure_all "step content" contents
    let (existing, db1, _) := normalize_steps_in_place now (stepsOfPlan db pid) db
    let total := existing.length
    let insert_pos := resolveInsertPos at? total
    let shift_by : Int := contents.length
    let db2 := if shift_by > 0 then putSteps db1 (shiftWrites now insert_pos shift_by existing)
               else db1
    let (created, db3) :=
      insertStepRows now pid status.asStr executor.asStr insert_pos 0 contents db2
    let (changes, db4) ← refresh_plan_status_with_conn ctx now db3 pid
    let db5 ← touch_plan_with_conn ctx now db4 pid
    return ((created, changes), db5))

/-- `App::add_step_tree`: append a single Todo step plus its goal
subtree, then recompute and touch. -/
def add_step_tree (ctx : Ctx) (now : Nat) (pid : Int) (content : String)
    (executor : StepExecutor) (goals : List String) (db : DB) :
    (Except AppError (Step × List Goal × StatusChanges)) × DB :=
  finalize db (do
    ensure_non_empty "step content" content
    ensure_all "goal content" goals
    if (findPlan db pid).isNone then
      throw (AppError.NotFound ("plan id " ++ toString pid))
    let (existing, db1, _) := normalize_steps_in_place now (stepsOfPlan db pid) db
    let srow : Step :=
      { id := db1.next_step_id, plan_id := pid, content := content
        status := StepStatus.Todo.asStr, executor := executor.asStr
        sort_order := ((existing.length + 1 : Nat) : Int), comment := none
        created_at := now, updated_at := now }
    let db2 := { db1 with steps := db1.steps ++ [srow], next_step_id := db1.next_step_id + 1 }
    let (created_goals, db3) := goals.foldl (fun (acc : List Goal × DB) c =>
      let grow : Goal :=
        { id := acc.2.next_goal_id, step_id := srow.id, content := c
          status := GoalStatus.Todo.asStr, comment := none
          created_at := now, updated_at := now }
      (acc.1 ++ [grow],
        { acc.2 with goals := acc.2.goals ++ [grow], next_goal_id := acc.2.next_goal_id + 1 }))
      ([], db2)
    let (changes, db4) ← refresh_plan_status_with_conn ctx now db3 pid
    let db5 ← touch_plan_with_conn ctx now db4 pid
    return ((srow, created_goals, changes), db5))

/-- Apply `StepChanges` to the stored row; stamps `updated_at`. -/
def applyStepChanges (now : Nat) (c : StepChanges) (s : Step) : Step :=
  let s := match c.content with | some t => { s with content := t } | none => s
  let s := match c.status with | some st => { s with status := st.asStr } | none => s
  let s := match c.executor with | some e => { s with executor := e.asStr } | none => s
  let s := match c.comment with | some t => { s with comment := some t } | none => s
  { s with updated_at := now }

/-- `App::update_step_with_conn`: validate, run the manual-Done guard
against the first pending goal, write the partial update, refresh the
plan when a status was supplied, and touch the plan. -/
def update_step_with_conn (ctx : Ctx) (now : Nat) (db : DB) (id : Int)
    (changes : StepChanges) : Except AppError ((Step × StatusChanges) × DB) := do
  match changes.content with
  | some t => ensure_non_empty "step content" t
  | none => pure ()
  if changes.status = some StepStatus.Done then
    if (stepGoalsRaw db id).length > 0 then
      match next_goal_for_step_with_conn db id with
      | some goal =>
        throw (AppError.InvalidInput ("cannot mark step done; next pending goal: " ++
          goal.content ++ " (id " ++ toString goal.id ++ ")"))
      | none => pure ()
  match findStep db id with
  | none => throw (AppError.NotFound ("step id " ++ toString id))
  | some s =>
    let model := applyStepChanges now changes s
    let db1 := putStep db model
    let (updates, db2) ←
      if changes.status.isSome then
        refresh_plan_status_with_conn ctx now db1 model.plan_id
      else pure (({} : StatusChanges), db1)
    let db3 ← touch_plan_with_conn ctx now db2 model.plan_id
    return ((model, updates), db3)

/-- `App::update_step`. -/
def update_step (ctx : Ctx) (now : Nat) (id : Int) (changes : StepChanges) (db : DB) :
    (Except AppError (Step × StatusChanges)) × DB :=
  finalize db (update_step_with_conn ctx now db id changes)

/-- `App::delete_steps`: de-duplicate, all-or-nothing existence check,
cascade-delete goals, delete, re-normalize and recompute every affected
plan, then touch them. -/
def delete_steps (ctx : Ctx) (now : Nat) (ids : List Int) (db : DB) :
    (Except AppError (Nat × StatusChanges)) × DB :=
  finalize db (do
    if ids.isEmpty then
      return ((0, {}), db)
    let uids := unique_ids ids
    let steps := db.steps.filter (fun s => uids.contains s.id)
    let existing := steps.map (·.id)
    let missing := uids.filter (fun i => !(existing.contains i))
    if !missing.isEmpty then
      throw (AppError.NotFound ("step id(s) not found: " ++ join_ids missing))
    let plan_ids := unique_ids (steps.map (·.plan_id))
    let db1 := { db with goals := db.goals.filter (fun g => !(uids.contains g.step_id)) }
    let db2 := { db1 with steps := db1.steps.filter (fun s => !(uids.contains s.id)) }
    let affected := db1.steps.length - db2.steps.length
    let db3 := plan_ids.foldl (fun acc pid => (normalize_steps_for_plan now acc pid).1) db2
    let (changes, db4) ← plan_ids.foldlM (fun (acc : StatusChanges × DB) pid => do
      let (updated, dbn) ← refresh_plan_status_with_conn ctx now acc.2 pid
      return (acc.1.merge updated, dbn)) (({} : StatusChanges), db3)
    let db5 ← if plan_ids.isEmpty then pure db4
              else touch_plans_with_conn ctx now db4 plan_ids
    return ((affected, changes), db5))

/-- `App::move_step`: clamp the target position, reorder the in-memory
list, and rewrite only the ordinals that changed. -/
def move_step (now : Nat) (id : Int) (to_pos : Nat) (db : DB) :
    (Except AppError (List Step)) × DB :=
  finalize db (do
    match findStep db id with
    | none => throw (AppError.NotFound ("step id " ++ toString id))
    | some target =>
      match (stepsOfPlan db target.plan_id).find? (fun s => s.id == id) with
      | none => throw (AppError.NotFound ("step id " ++ toString id))
      | some moving =>
        let steps := stepsOfPlan db target.plan_id
        let current_index := steps.findIdx (fun s => s.id == id)
        let desired_index :=
          if to_pos - 1 ≥ steps.length then steps.length - 1 else to_pos - 1
        let rest := steps.eraseIdx current_index
        let reordered :=
          if desired_index ≥ rest.length then rest ++ [moving]
          else rest.insertIdx desired_index moving
        let (out, db1, _) := normalizeGo now 0 reordered db 0
        return (out, db1))

/-! ## goal operations -/

/-- `App::add_goals_batch`: empty input returns immediately (before the
step existence check); otherwise validate, insert, cascade, touch. -/
def add_goals_batch (ctx : Ctx) (now : Nat) (sid : Int) (contents : List String)
    (status : GoalStatus) (db : DB) : (Except AppError (List Goal × StatusChanges)) × DB :=
  if contents.isEmpty then (.ok ([], {}), db)
  else
    finalize db (do
      ensure_all "goal content" contents
      match findStep db sid with
      | none => throw (AppError.NotFound ("step id " ++ toString sid))
      | some step =>
        let (created, db1) := contents.foldl (fun (acc : List Goal × DB) c =>
          let grow : Goal :=
            { id := acc.2.next_goal_id, step_id := sid, content := c
              status := status.asStr, comment := none
              created_at := now, updated_at := now }
          (acc.1 ++ [grow],
            { acc.2 with goals := acc.2.goals ++ [grow]
                         next_goal_id := acc.2.next_goal_id + 1 })) ([], db)
        let (changes, db2) ← refresh_step_status_with_conn ctx now db1 sid
        let db3 ← touch_plan_with_conn ctx now db2 step.plan_id
        return ((created, changes), db3))

/-- Apply `GoalChanges` to the stored row; stamps `updated_at`. -/
def applyGoalChanges (now : Nat) (c : GoalChanges) (g : Goal) : Goal :=
  let g := match c.content with | some t => { g with content := t } | none => g
  let g := match c.status with | some st => { g with status := st.asStr } | none => g
  let g := match c.comment with | some t => { g with comment := some t } | none => g
  { g with updated_at := now }

/-- `App::update_goal_with_conn`: write the partial update, cascade into
the step (and hence plan) recomputation, then touch the plan. -/
def update_goal_with_conn (ctx : Ctx) (now : Nat) (db : DB) (id : Int)
    (changes : GoalChanges) : Except AppError ((Goal × StatusChanges) × DB) := do
  match changes.content with
  | some t => ensure_non_empty "goal content" t
  | none => pure ()
  match findGoal db id with
  | none => throw (AppError.NotFound ("goal id " ++ toString id))
  | some g =>
    let model := applyGoalChanges now changes g
    let db1 := putGoal db model
    let (changes', db2) ← refresh_step_status_with_conn ctx now db1 model.step_id
    let db3 ←
      match findStep db2 model.step_id with
      | some step => touch_plan_with_conn ctx now db2 step.plan_id
      | none => pure db2
    return ((model, changes'), db3)

/-- `App::update_goal`. -/
def update_goal (ctx : Ctx) (now : Nat) (id : Int) (changes : GoalChanges) (db : DB) :
    (Except AppError (Goal × StatusChanges)) × DB :=
  finalize db (update_goal_with_conn ctx now db id changes)

/-- `App::set_goal_status`. -/
def set_goal_status (ctx : Ctx) (now : Nat) (id : Int) (status : GoalStatus) (db : DB) :
    (Except AppError (Goal × StatusChanges)) × DB :=
  update_goal ctx now id { status := some status } db

/-- `App::set_goals_status_with_conn`: bulk goal-status write with
all-or-nothing existence check, then cascade per affected step. -/
def set_goals_status_with_conn (ctx : Ctx) (now : Nat) (db : DB) (ids : List Int)
    (status : GoalStatus) : Except AppError ((Nat × StatusChanges) × DB) := do
  if ids.isEmpty then
    return ((0, {}), db)
  let uids := unique_ids ids
  let goals := db.goals.filter (fun g => uids.contains g.id)
  let existing := goals.map (·.id)
  let missing := uids.filter (fun i => !(existing.contains i))
  if !missing.isEmpty then
    throw (AppError.NotFound ("goal id(s) not found: " ++ join_ids missing))
  let step_ids := unique_ids (goals.map (·.step_id))
  let db1 := goals.foldl (fun acc g =>
    putGoal acc { g with status := status.asStr, updated_at := now }) db
  let (changes, db2) ← step_ids.foldlM (fun (acc : StatusChanges × DB) sid => do
    let (updated, dbn) ← refresh_step_status_with_conn ctx now acc.2 sid
    return (acc.1.merge updated, dbn)) (({} : StatusChanges), db1)
  let plan_ids :=
    if step_ids.isEmpty then []
    else unique_ids ((db2.steps.filter (fun s => step_ids.contains s.id)).map (·.plan_id))
  let db3 ← if plan_ids.isEmpty then pure db2
            else touch_plans_with_conn ctx now db2 plan_ids
  return ((uids.length, changes), db3)

/-- `App::set_goals_status`. -/
def set_goals_status (ctx : Ctx) (now : Nat) (ids : List Int) (status : GoalStatus)
    (db : DB) : (Except AppError (Nat × StatusChanges)) × DB :=
  finalize db (set_goals_status_with_conn ctx now db ids status)

/-- `App::set_all_goals_done_for_step_with_conn`. -/
def set_all_goals_done_for_step_with_conn (ctx : Ctx) (now : Nat) (db : DB) (sid : Int) :
    Except AppError (StatusChanges × DB) := do
  if (findStep db sid).isNone then
    throw (AppError.NotFound ("step id " ++ toString sid))
  let goals := goals_for_step_with_conn db sid
  if goals.isEmpty then
    return ({}, db)
  let ((_, changes), db1) ←
    set_goals_status_with_conn ctx now db (goals.map (·.id)) GoalStatus.Done
  return (changes, db1)

/-- `App::set_step_done_with_goals`: optionally force every goal Done
first (through the same cascade path), then set the step Done. -/
def set_step_done_with_goals (ctx : Ctx) (now : Nat) (id : Int) (all_goals : Bool)
    (db : DB) : (Except AppError (Step × StatusChanges)) × DB :=
  finalize db (do
    let (merged, db1) ←
      if all_goals then set_all_goals_done_for_step_with_conn ctx now db id
      else pure (({} : StatusChanges), db)
    let ((step, changes), db2) ←
      update_step_with_conn ctx now db1 id { status := some StepStatus.Done }
    return ((step, merged.merge changes), db2))

/-- `App::delete_goals`: de-duplicate, all-or-nothing existence check,
delete, cascade per affected step, touch the affected plans. -/
def delete_goals (ctx : Ctx) (now : Nat) (ids : List Int) (db : DB) :
    (Except AppError (Nat × StatusChanges)) × DB :=
  finalize db (do
    if ids.isEmpty then
      return ((0, {}), db)
    let uids := unique_ids ids
    let goals := db.goals.filter (fun g => uids.contains g.id)
    let existing := goals.map (·.id)
    let missing := uids.filter (fun i => !(existing.contains i))
    if !missing.isEmpty then
      throw (AppError.NotFound ("goal id(s) not found: " ++ join_ids missing))
    let step_ids := unique_ids (goals.map (·.step_id))
    let db1 := { db with goals := db.goals.filter (fun g => !(uids.contains g.id)) }
    let affected := db.goals.length - db1.goals.length
    let (changes, db2) ← step_ids.foldlM (fun (acc : StatusChanges × DB) sid => do
      let (updated, dbn) ← refresh_step_status_with_conn ctx now acc.2 sid
      return (acc.1.merge updated, dbn)) (({} : StatusChanges), db1)
    let db3 ←
      if step_ids.isEmpty then pure db2
      else
        let plan_ids :=
          unique_ids ((db2.steps.filter (fun s => step_ids.contains s.id)).map (·.plan_id))
        if plan_ids.isEmpty then pure db2
        else touch_plans_with_conn ctx now db2 plan_ids
    return ((affected, changes), db3))

/-! ## the orchestrator surface as one operation type

One constructor per public mutating `App` operation in the
add / update / delete / reorder / status-set families, over plans,
steps and goals. -/

/-- An orchestrator operation. -/
inductive Op
  | addPlan (input : PlanInput)
  | addPlanTree (input : PlanInput) (steps : List StepInput)
  | updatePlan (id : Int) (changes : PlanChanges)
  | deletePlan (id : Int)
  | addStepsBatch (pid : Int) (contents : List String) (status : StepStatus)
      (executor : StepExecutor) (at? : Option Nat)
  | addStepTree (pid : Int) (content : String) (executor : StepExecutor)
      (goals : List String)
  | updateStep (id : Int) (changes : StepChanges)
  | setStepDoneWithGoals (id : Int) (all_goals : Bool)
  | deleteSteps (ids : List Int)
  | moveStep (id : Int) (to_pos : Nat)
  | addGoalsBatch (sid : Int) (contents : List String) (status : GoalStatus)
  | updateGoal (id : Int) (changes : GoalChanges)
  | setGoalStatus (id : Int) (status : GoalStatus)
  | setGoalsStatus (ids : List Int) (status : GoalStatus)
  | deleteGoals (ids : List Int)
deriving DecidableEq, Repr

/-- Run one orchestrator operation; the first component reports success
or failure, the second is the committed (on success) or rolled-back (on
failure) store. -/
def applyOp (ctx : Ctx) (now : Nat) (db : DB) : Op → (Except AppError Unit) × DB
  | .addPlan input =>
    let (r, db') := add_plan ctx now input db
    (r.map (fun _ => ()), db')
  | .addPlanTree input steps =>
    let (r, db') := add_plan_tree ctx now input steps db
    (r.map (fun _ => ()), db')
  | .updatePlan id changes =>
    let (r, db') := update_plan_with_active_clear ctx now id changes db
    (r.map (fun _ => ()), db')
  | .deletePlan id =>
    let (r, db') := delete_plan id db
    (r.map (fun _ => ()), db')
  | .addStepsBatch pid contents status executor at? =>
    let (r, db') := add_steps_batch ctx now pid contents status executor at? db
    (r.map (fun _ => ()), db')
  | .addStepTree pid content executor goals =>
    let (r, db') := add_step_tree ctx now pid content executor goals db
    (r.map (fun _ => ()), db')
  | .updateStep id changes =>
    let (r, db') := update_step ctx now id changes db
    (r.map (fun _ => ()), db')
  | .setStepDoneWithGoals id all_goals =>
    let (r, db') := set_step_done_with_goals ctx now id all_goals db
    (r.map (fun _ => ()), db')
  | .deleteSteps ids =>
    let (r, db') := delete_steps ctx now ids db
    (r.map (fun _ => ()), db')
  | .moveStep id to_pos =>
    let (r, db') := move_step now id to_pos db
    (r.map (fun _ => ()), db')
  | .addGoalsBatch sid contents status =>
    let (r, db') := add_goals_batch ctx now sid contents status db
    (r.map (fun _ => ()), db')
  | .updateGoal id changes =>
    let (r, db') := update_goal ctx now id changes db
    (r.map (fun _ => ()), db')
  | .setGoalStatus id status =>
    let (r, db') := set_goal_status ctx now id status db
    (r.map (fun _ => ()), db')
  | .setGoalsStatus ids status =>
    let (r, db') := set_goals_status ctx now ids status db
    (r.map (fun _ => ()), db')
  | .deleteGoals ids =>
    let (r, db') := delete_goals ctx now ids db
    (r.map (fun _ => ()), db')

/-! ## invariants and well-formedness -/

/-- Primary-key / freshness / reference discipline every reachable store
satisfies: distinct ids per table, counters above every existing id, and
steps referencing existing plans. -/
structure WF (db : DB) : Prop where
  plans_nodup : (db.plans.map (·.id)).Nodup
  steps_nodup : (db.steps.map (·.id)).Nodup
  goals_nodup : (db.goals.map (·.id)).Nodup
  plans_lt : ∀ p ∈ db.plans, p.id < db.next_plan_id
  steps_lt : ∀ s ∈ db.steps, s.id < db.next_step_id
  goals_lt : ∀ g ∈ db.goals, g.id < db.next_goal_id
  steps_ref : ∀ s ∈ db.steps, ∃ p ∈ db.plans, p.id = s.plan_id

/-- The plan-level derived-status invariant at one plan row: for a plan
with at least one step, Done iff every child step is Done. -/
def PlanStepInvAt (db : DB) (p : Plan) : Prop :=
  planStepsRaw db p.id ≠ [] →
    (p.status = PlanStatus.Done.asStr ↔
      ∀ s ∈ planStepsRaw db p.id, s.status = StepStatus.Done.asStr)

/-- The plan-level derived-status invariant, store-wide. -/
def PlanStepInv (db : DB) : Prop := ∀ p ∈ db.plans, PlanStepInvAt db p

instance (db : DB) (p : Plan) : Decidable (PlanStepInvAt db p) := by
  unfold PlanStepInvAt
  infer_instance

instance (db : DB) : Decidable (PlanStepInv db) := by
  unfold PlanStepInv
  infer_instance

/-- C10: for every step id (existing or not), the batch goal-add with an
empty contents list returns an empty goal list and empty change log and
leaves the store untouched; the missing-step check is skipped entirely. -/
theorem add_goals_batch_empty_noop (ctx : Ctx) (now : Nat) (sid : Int)
    (status : GoalStatus) (db : DB) :
    add_goals_batch ctx now sid [] status db = (.ok ([], {}), db) := rfl


/-- C5 (amended): whenever the plan-status recomputation transitions a
plan to Done it deletes every ActivePlan row bound to that plan in the
same transaction, regardless of owner; the change log receives an
`active_plan_cleared` entry exactly when the deleted binding belonged to
the calling session. -/
theorem refresh_plan_done_clears (ctx : Ctx) (now : Nat) (db : DB) (pid : Int)
    (ch : StatusChanges) (db' : DB)
    (h : refresh_plan_status_with_conn ctx now db pid = .ok (ch, db'))
    (r : PlanStatusChange) (hr : r ∈ ch.plans) (hto : r.to_status = PlanStatus.Done.asStr) :
    (∀ a ∈ db'.active_plans, a.plan_id ≠ pid) ∧
    ch.active_plans_cleared =
      (if (db.active_plans.find? (fun a =>
            a.plan_id == pid && a.session_id == ctx.session_id)).isSome
       then [{ plan_id := pid, reason := "plan marked done" }] else []) := by
  unfold refresh_plan_status_with_conn at h
  simp only [clear_active_plans_for_plan_with_conn] at h
  repeat' split at h
  all_goals first
    | (cases h; simp at hr)
    | cases h
  all_goals first
    | (exact absurd (by decide : (PlanStatus.Done == PlanStatus.Done) = true) (by assumption))
    | (subst hr; simp [PlanStatus.asStr] at hto; done)
    | (rename_i hcl
       simp only [patchPlan] at hcl
       refine ⟨fun a ha => ?_, by simp [hcl]⟩
       simp only [patchPlan, List.mem_filter, Bool.not_eq_true', beq_eq_false_iff_ne] at ha
       exact ha.2)


theorem next_step_mem (db : DB) (pid : Int) (b : Step)
    (h : next_step_with_conn db pid = some b) :
    b ∈ planStepsRaw db pid ∧ b.status = StepStatus.Todo.asStr := by
  unfold next_step_with_conn at h
  have hb : b ∈ sortSteps ((planStepsRaw db pid).filter
      (fun s => s.status == StepStatus.Todo.asStr)) := by
    cases hl : sortSteps ((planStepsRaw db pid).filter
        (fun s => s.status == StepStatus.Todo.asStr)) with
    | nil => rw [hl] at h; cases h
    | cons x xs => rw [hl] at h; cases h; exact List.mem_cons_self _ _
  have hm : b ∈ (planStepsRaw db pid).filter (fun s => s.status == StepStatus.Todo.asStr) :=
    (List.perm_insertionSort stepLE _).mem_iff.mp hb
  have := List.mem_filter.mp hm
  exact ⟨this.1, by simpa using this.2⟩

theorem next_goal_mem (db : DB) (sid : Int) (b : Goal)
    (h : next_goal_for_step_with_conn db sid = some b) :
    b ∈ stepGoalsRaw db sid ∧ b.status = GoalStatus.Todo.asStr := by
  unfold next_goal_for_step_with_conn at h
  have hb : b ∈ sortGoals ((stepGoalsRaw db sid).filter
      (fun g => g.status == GoalStatus.Todo.asStr)) := by
    cases hl : sortGoals ((stepGoalsRaw db sid).filter
        (fun g => g.status == GoalStatus.Todo.asStr)) with
    | nil => rw [hl] at h; cases h
    | cons x xs => rw [hl] at h; cases h; exact List.mem_cons_self _ _
  have hm : b ∈ (stepGoalsRaw db sid).filter (fun g => g.status == GoalStatus.Todo.asStr) :=
    (List.perm_insertionSort goalLE _).mem_iff.mp hb
  have := List.mem_filter.mp hm
  exact ⟨this.1, by simpa using this.2⟩

/-- C3 draft: plan part -/
theorem update_plan_done_guard (ctx : Ctx) (now : Nat) (db : DB) (id : Int)
    (changes : PlanChanges) (blocker : Step)
    (hst : changes.status = some PlanStatus.Done)
    (htitle : ∀ t, changes.title = some t → isBlank t = false)
    (hcontent : ∀ t, changes.content = some t → isBlank t = false)
    (hnext : next_step_with_conn db id = some blocker) :
    update_plan_with_active_clear ctx now id changes db =
      (.error (.InvalidInput ("cannot mark plan done; next pending step:\n" ++
        format_step_detail blocker (goals_for_step_with_conn db blocker.id))), db) ∧
    blocker ∈ planStepsRaw db id ∧ blocker.status = StepStatus.Todo.asStr := by
  obtain ⟨hmem, htodo⟩ := next_step_mem db id blocker hnext
  have htot : (planStepsRaw db id).length > 0 := List.length_pos.mpr (by
    intro hnil; rw [hnil] at hmem; cases hmem)
  have hup : update_plan_with_conn ctx now db id changes =
      .error (.InvalidInput ("cannot mark plan done; next pending step:\n" ++
        format_step_detail blocker (goals_for_step_with_conn db blocker.id))) := by
    unfold update_plan_with_conn
    rw [hst]
    cases hti : changes.title with
    | none =>
      cases hco : changes.content with
      | none =>
        simp only [ensure_non_empty, epure, ebind_ok, if_pos rfl, if_pos htot, hnext]
        rfl
      | some c =>
        simp only [ensure_non_empty, htitle, hcontent c hco, epure, ebind_ok,
          Bool.false_eq_true, if_false, if_pos rfl, if_pos htot, hnext]
        rfl
    | some t =>
      cases hco : changes.content with
      | none =>
        simp only [ensure_non_empty, htitle t hti, epure, ebind_ok,
          Bool.false_eq_true, if_false, if_pos rfl, if_pos htot, hnext]
        rfl
      | some c =>
        simp only [ensure_non_empty, htitle t hti, hcontent c hco, epure, ebind_ok,
          Bool.false_eq_true, if_false, if_pos rfl, if_pos htot, hnext]
        rfl
  refine ⟨?_, hmem, htodo⟩
  unfold update_plan_with_active_clear
  rw [hup]
  rfl


theorem update_step_done_guard (ctx : Ctx) (now : Nat) (db : DB) (id : Int)
    (changes : StepChanges) (g : Goal)
    (hst : changes.status = some StepStatus.Done)
    (hcontent : ∀ t, changes.content = some t → isBlank t = false)
    (hnext : next_goal_for_step_with_conn db id = some g) :
    update_step ctx now id changes db =
      (.error (.InvalidInput ("cannot mark step done; next pending goal: " ++
        g.content ++ " (id " ++ toString g.id ++ ")")), db) ∧
    g ∈ stepGoalsRaw db id ∧ g.status = GoalStatus.Todo.asStr := by
  obtain ⟨hmem, htodo⟩ := next_goal_mem db id g hnext
  have htot : (stepGoalsRaw db id).length > 0 := List.length_pos.mpr (by
    intro hnil; rw [hnil] at hmem; cases hmem)
  have hup : update_step_with_conn ctx now db id changes =
      .error (.InvalidInput ("cannot mark step done; next pending goal: " ++
        g.content ++ " (id " ++ toString g.id ++ ")")) := by
    unfold update_step_with_conn
    rw [hst]
    cases hco : changes.content with
    | none =>
      simp only [ensure_non_empty, epure, ebind_ok, if_pos rfl, if_pos htot, hnext]
      rfl
    | some c =>
      simp only [ensure_non_empty, hcontent c hco, epure, ebind_ok,
        Bool.false_eq_true, if_false, if_pos rfl, if_pos htot, hnext]
      rfl
  refine ⟨?_, hmem, htodo⟩
  unfold update_step
  rw [hup]
  rfl


theorem set_active_plan_conflict (ctx : Ctx) (now : Nat) (pid : Int) (db : DB)
    (p : Plan) (e : ActivePlan)
    (hp : findPlan db pid = some p)
    (he : db.active_plans.find? (fun a => a.plan_id == pid) = some e)
    (hne : e.session_id ≠ ctx.session_id) :
    set_active_plan ctx now pid false db =
      (.error (.InvalidInput ("plan id " ++ toString pid ++
        " is already active in session " ++ e.session_id ++
        " (use --force to take over)")), db) := by
  unfold set_active_plan
  rw [hp, he]
  have hcond : e.session_id ≠ ctx.session_id ∧ ¬(false : Bool) = true := ⟨hne, by simp⟩
  simp only [if_pos hcond, ethrow, ebind_err]
  rfl

/-- The committed store of a successful `set_active_plan`. -/
def setActiveResultDB (ctx : Ctx) (now : Nat) (pid : Int) (db : DB) : DB :=
  { db with
    plans := db.plans.map (fun q => if q.id == pid then
      { q with last_session_id := some ctx.session_id, updated_at := now } else q)
    active_plans :=
      ((db.active_plans.filter (fun a => !(a.session_id == ctx.session_id))).filter
        (fun a => !(a.plan_id == pid))) ++
      [{ id := db.next_active_plan_id, session_id := ctx.session_id
         plan_id := pid, updated_at := now }]
    next_active_plan_id := db.next_active_plan_id + 1 }

theorem set_active_plan_success (ctx : Ctx) (now : Nat) (pid : Int) (takeover : Bool)
    (db : DB) (p : Plan)
    (hp : findPlan db pid = some p)
    (hok : ∀ e, db.active_plans.find? (fun a => a.plan_id == pid) = some e →
      e.session_id = ctx.session_id ∨ takeover = true) :
    set_active_plan ctx now pid takeover db =
      (.ok { id := db.next_active_plan_id, session_id := ctx.session_id
             plan_id := pid, updated_at := now },
       setActiveResultDB ctx now pid db) := by
  unfold set_active_plan
  rw [hp]
  have hfind : ∀ (l : List ActivePlan) (r : ActivePlan), r.session_id = ctx.session_id →
      (∀ x ∈ l, ¬(x.session_id == ctx.session_id) = true) →
      (l ++ [r]).find? (fun a => a.session_id == ctx.session_id) = some r := by
    intro l r hr hl
    rw [List.find?_append]
    have h1 : l.find? (fun a => a.session_id == ctx.session_id) = none :=
      List.find?_eq_none.mpr (fun x hx => by simpa using hl x hx)
    rw [h1]
    simp [hr]
  have hmem2 : ∀ x ∈ (db.active_plans.filter (fun a => !(a.session_id == ctx.session_id))).filter
      (fun a => !(a.plan_id == pid)), ¬(x.session_id == ctx.session_id) = true := by
    intro x hx
    have h1 := (List.mem_filter.mp hx).1
    have h2 := (List.mem_filter.mp h1).2
    simpa using h2
  have hp' : db.plans.find? (fun q => q.id == pid) = some p := hp
  have hrow := hfind ((db.active_plans.filter (fun a => !(a.session_id == ctx.session_id))).filter
      (fun a => !(a.plan_id == pid)))
      { id := db.next_active_plan_id, session_id := ctx.session_id, plan_id := pid, updated_at := now }
      rfl hmem2
  cases hf : db.active_plans.find? (fun a => a.plan_id == pid) with
  | none =>
    simp only [hf, epure, ebind_ok, touch_plan_with_conn, findPlan, hp',
      Option.isSome_some, if_true, patchPlan]
    rw [hrow]
    rfl
  | some e =>
    rcases hok e hf with hsess | htk
    · have hcond : ¬(e.session_id ≠ ctx.session_id ∧ ¬takeover = true) := by
        intro hc; exact hc.1 hsess
      simp only [hf, if_neg hcond, epure, ebind_ok, touch_plan_with_conn, findPlan, hp',
        Option.isSome_some, if_true, patchPlan]
      rw [hrow]
      rfl
    · have hcond : ¬(e.session_id ≠ ctx.session_id ∧ ¬takeover = true) := by
        intro hc; exact hc.2 htk
      simp only [hf, if_neg hcond, epure, ebind_ok, touch_plan_with_conn, findPlan, hp',
        Option.isSome_some, if_true, patchPlan]
      rw [hrow]
      rfl


/-- One-plan-one-step-two-goal store shape used in the cascade scenario. -/
def scnDB (p : Plan) (s : Step) (gs : List Goal) (ap : List ActivePlan)
    (n1 n2 n3 n4 : Int) : DB :=
  { plans := [p], steps := [s], goals := gs, active_plans := ap
    next_plan_id := n1, next_step_id := n2, next_goal_id := n3, next_active_plan_id := n4 }

theorem scn_refresh_plan_noop (ctx : Ctx) (now : Nat) (p : Plan) (s : Step)
    (gs : List Goal) (ap : List ActivePlan) (n1 n2 n3 n4 : Int)
    (hsp : s.plan_id = p.id) (hss : s.status = "todo") (hps : p.status = "todo") :
    refresh_plan_status_with_conn ctx now (scnDB p s gs ap n1 n2 n3 n4) p.id =
      .ok ({}, scnDB p s gs ap n1 n2 n3 n4) := by
  unfold refresh_plan_status_with_conn planStepsRaw findPlan scnDB
  simp [hsp, hss, hps, StepStatus.asStr, PlanStatus.asStr]

theorem scn_refresh_step_noop (ctx : Ctx) (now : Nat) (p : Plan) (s : Step)
    (g1 g2 : Goal) (ap : List ActivePlan) (n1 n2 n3 n4 : Int)
    (hsp : s.plan_id = p.id) (hss : s.status = "todo") (hps : p.status = "todo")
    (hg1 : g1.step_id = s.id) (hg2 : g2.step_id = s.id)
    (hg1s : g1.status = "done") (hg2s : g2.status = "todo") :
    refresh_step_status_with_conn ctx now (scnDB p s [g1, g2] ap n1 n2 n3 n4) s.id =
      .ok ({}, scnDB p s [g1, g2] ap n1 n2 n3 n4) := by
  have hl1 := scn_refresh_plan_noop ctx now p s [g1, g2] ap n1 n2 n3 n4 hsp hss hps
  unfold refresh_step_status_with_conn stepGoalsRaw findStep
  simp only [scnDB] at hl1 ⊢
  simp [hg1, hg2, hg1s, hg2s, hss, hsp, GoalStatus.asStr, StepStatus.asStr, hl1,
    StatusChanges.merge]

theorem scn_refresh_plan_trans (ctx : Ctx) (now : Nat) (p : Plan) (s : Step)
    (gs : List Goal) (ap : List ActivePlan) (n1 n2 n3 n4 : Int)
    (hsp : s.plan_id = p.id) (hss : s.status = "done") (hps : p.status = "todo") :
    refresh_plan_status_with_conn ctx now (scnDB p s gs ap n1 n2 n3 n4) p.id =
      .ok ({ plans := [{ plan_id := p.id, from_status := p.status, to_status := "done",
                         reason := "all steps are done (1/1)" }]
             active_plans_cleared :=
               if (ap.find? (fun a => a.plan_id == p.id && a.session_id == ctx.session_id)).isSome
               then [{ plan_id := p.id, reason := "plan marked done" }] else [] },
        scnDB { p with status := "done", updated_at := now } s gs
          (ap.filter (fun a => !(a.plan_id == p.id))) n1 n2 n3 n4) := by
  unfold refresh_plan_status_with_conn planStepsRaw findPlan
  unfold clear_active_plans_for_plan_with_conn patchPlan
  simp only [scnDB]
  simp only [List.filter, hsp, beq_self_eq_true, hss, hps, StepStatus.asStr, PlanStatus.asStr]
  cases hc : (ap.find? (fun a => a.plan_id == p.id && a.session_id == ctx.session_id)).isSome
  · simp [hc, hps]
    decide
  · simp [hc, hps]
    decide

theorem scn_refresh_step_trans (ctx : Ctx) (now : Nat) (p : Plan) (s : Step)
    (g1 g2 : Goal) (ap : List ActivePlan) (n1 n2 n3 n4 : Int)
    (hsp : s.plan_id = p.id) (hss : s.status = "todo") (hps : p.status = "todo")
    (hg1 : g1.step_id = s.id) (hg2 : g2.step_id = s.id)
    (hg1s : g1.status = "done") (hg2s : g2.status = "done") :
    refresh_step_status_with_conn ctx now (scnDB p s [g1, g2] ap n1 n2 n3 n4) s.id =
      .ok ({ steps := [{ step_id := s.id, from_status := s.status, to_status := "done",
                         reason := "all goals are done (2/2)" }]
             plans := [{ plan_id := p.id, from_status := p.status, to_status := "done",
                         reason := "all steps are done (1/1)" }]
             active_plans_cleared :=
               if (ap.find? (fun a => a.plan_id == p.id && a.session_id == ctx.session_id)).isSome
               then [{ plan_id := p.id, reason := "plan marked done" }] else [] },
        scnDB { p with status := "done", updated_at := now }
          { s with status := "done", updated_at := now } [g1, g2]
          (ap.filter (fun a => !(a.plan_id == p.id))) n1 n2 n3 n4) := by
  have hl := scn_refresh_plan_trans ctx now p { s with status := "done", updated_at := now }
    [g1, g2] ap n1 n2 n3 n4 hsp rfl hps
  unfold refresh_step_status_with_conn stepGoalsRaw findStep patchStep
  simp only [scnDB] at hl ⊢
  simp only [List.filter, List.find?, hg1, hg2, beq_self_eq_true, hg1s, hg2s,
    GoalStatus.asStr, StepStatus.asStr,
    show (("done" : String) == "done") = true from rfl, List.isEmpty_cons]
  simp only [List.length, show ((2 : Nat) == 2) = true from rfl, if_true, hss, hsp]
  simp [hl, hss, hps, StatusChanges.merge]
  exact ⟨by decide, hsp⟩

theorem scn_set_goal_first (ctx : Ctx) (now : Nat) (p : Plan) (s : Step)
    (gA gB : Goal) (ap : List ActivePlan) (n1 n2 n3 n4 : Int)
    (hsp : s.plan_id = p.id) (hss : s.status = "todo") (hps : p.status = "todo")
    (hgA : gA.step_id = s.id) (hgB : gB.step_id = s.id)
    (hBA : (gB.id == gA.id) = false) (hgBs : gB.status = "todo") :
    set_goal_status ctx now gA.id .Done (scnDB p s [gA, gB] ap n1 n2 n3 n4) =
      (.ok ({ gA with status := "done", updated_at := now }, {}),
       scnDB { p with last_session_id := some ctx.session_id, updated_at := now } s
         [{ gA with status := "done", updated_at := now }, gB] ap n1 n2 n3 n4) := by
  have hl2 := scn_refresh_step_noop ctx now p s
    { gA with status := "done", updated_at := now } gB ap n1 n2 n3 n4
    hsp hss hps hgA hgB rfl hgBs
  have hBA' : ¬(gB.id = gA.id) := by simpa using hBA
  unfold set_goal_status update_goal update_goal_with_conn applyGoalChanges findGoal
    putGoal finalize touch_plan_with_conn patchPlan findPlan findStep
  simp only [scnDB] at hl2 ⊢
  simp only [hgA, hgB, hsp] at hl2
  simp [hBA, hBA', hl2, hgA, hsp, GoalStatus.asStr, epure, ebind_ok]

theorem scn_set_goal_second (ctx : Ctx) (now : Nat) (p : Plan) (s : Step)
    (g1 gB : Goal) (ap : List ActivePlan) (n1 n2 n3 n4 : Int)
    (hsp : s.plan_id = p.id) (hss : s.status = "todo") (hps : p.status = "todo")
    (hg1 : g1.step_id = s.id) (hgB : gB.step_id = s.id)
    (hAB : (g1.id == gB.id) = false) (hg1s : g1.status = "done") :
    set_goal_status ctx now gB.id .Done (scnDB p s [g1, gB] ap n1 n2 n3 n4) =
      (.ok ({ gB with status := "done", updated_at := now },
        { steps := [{ step_id := s.id, from_status := s.status, to_status := "done",
                      reason := "all goals are done (2/2)" }]
          plans := [{ plan_id := p.id, from_status := p.status, to_status := "done",
                      reason := "all steps are done (1/1)" }]
          active_plans_cleared :=
            if (ap.find? (fun a => a.plan_id == p.id && a.session_id == ctx.session_id)).isSome
            then [{ plan_id := p.id, reason := "plan marked done" }] else [] }),
       scnDB { p with status := "done", last_session_id := some ctx.session_id,
                      updated_at := now }
         { s with status := "done", updated_at := now }
         [g1, { gB with status := "done", updated_at := now }]
         (ap.filter (fun a => !(a.plan_id == p.id))) n1 n2 n3 n4) := by
  have hl := scn_refresh_step_trans ctx now p s g1
    { gB with status := "done", updated_at := now } ap n1 n2 n3 n4
    hsp hss hps hg1 hgB hg1s rfl
  have hAB' : ¬(g1.id = gB.id) := by simpa using hAB
  unfold set_goal_status update_goal update_goal_with_conn applyGoalChanges findGoal
    putGoal finalize touch_plan_with_conn patchPlan findPlan findStep
  simp only [scnDB] at hl ⊢
  simp only [hgB, hsp, hg1] at hl
  simp [hAB, hAB', hl, hgB, hsp, GoalStatus.asStr, epure, ebind_ok]

/-- C2: in a store holding one plan with one step carrying two Todo
goals, marking the first goal Done commits no transition at all (the
step row is untouched); marking the second goal Done yields exactly one
step transition and one plan transition in the change log, plus exactly
one `active_plans_cleared` entry when the plan was the calling session's
active plan (and none otherwise). -/
theorem goal_cascade_scenario (ctx : Ctx) (now1 now2 : Nat) (db : DB)
    (p : Plan) (s : Step) (gA gB : Goal)
    (hplans : db.plans = [p]) (hsteps : db.steps = [s]) (hgoals : db.goals = [gA, gB])
    (hsp : s.plan_id = p.id) (hgA : gA.step_id = s.id) (hgB : gB.step_id = s.id)
    (hid : gA.id ≠ gB.id)
    (hps : p.status = PlanStatus.Todo.asStr) (hss : s.status = StepStatus.Todo.asStr)
    (hgAs : gA.status = GoalStatus.Todo.asStr) (hgBs : gB.status = GoalStatus.Todo.asStr) :
    (set_goal_status ctx now1 gA.id .Done db).1 =
      .ok ({ gA with status := GoalStatus.Done.asStr, updated_at := now1 }, {}) ∧
    (set_goal_status ctx now1 gA.id .Done db).2.steps = [s] ∧
    (set_goal_status ctx now2 gB.id .Done (set_goal_status ctx now1 gA.id .Done db).2).1 =
      .ok ({ gB with status := GoalStatus.Done.asStr, updated_at := now2 },
        { steps := [{ step_id := s.id, from_status := StepStatus.Todo.asStr,
                      to_status := StepStatus.Done.asStr, reason := "all goals are done (2/2)" }]
          plans := [{ plan_id := p.id, from_status := PlanStatus.Todo.asStr,
                      to_status := PlanStatus.Done.asStr, reason := "all steps are done (1/1)" }]
          active_plans_cleared :=
            if (db.active_plans.find? (fun a =>
                a.plan_id == p.id && a.session_id == ctx.session_id)).isSome
            then [{ plan_id := p.id, reason := "plan marked done" }] else [] }) := by
  have hBA : (gB.id == gA.id) = false := beq_eq_false_iff_ne.mpr (Ne.symm hid)
  have hAB : (gA.id == gB.id) = false := beq_eq_false_iff_ne.mpr hid
  have hps' : p.status = "todo" := hps
  have hss' : s.status = "todo" := hss
  have hgBs' : gB.status = "todo" := hgBs
  obtain ⟨pl, st, gl, ap, n1, n2, n3, n4⟩ := db
  simp only at hplans hsteps hgoals
  subst hplans hsteps hgoals
  have hc1 := scn_set_goal_first ctx now1 p s gA gB ap n1 n2 n3 n4
    hsp hss' hps' hgA hgB hBA hgBs'
  have hc2 := scn_set_goal_second ctx now2
    { p with last_session_id := some ctx.session_id, updated_at := now1 } s
    { gA with status := "done", updated_at := now1 } gB ap n1 n2 n3 n4
    hsp hss' hps' hgA hgB hAB rfl
  simp only [scnDB] at hc1 hc2
  refine ⟨?_, ?_, ?_⟩
  · rw [hc1]
    rfl
  · rw [hc1]
  · rw [hc1]
    rw [hc2]
    simp only [hss', hps']
    rfl

/-- C3: an explicit status-update that would set a Plan with a pending
(Todo) Step, or a Step with a pending Goal, to Done fails with
`InvalidInput` carrying the rendered detail of the first blocking child,
and the store is returned unchanged (the transaction rolls back). -/
theorem manual_done_guard (ctx : Ctx) (now : Nat) (db : DB) :
    (∀ (id : Int) (changes : PlanChanges) (blocker : Step),
      changes.status = some PlanStatus.Done →
      (∀ t, changes.title = some t → isBlank t = false) →
      (∀ t, changes.content = some t → isBlank t = false) →
      next_step_with_conn db id = some blocker →
      update_plan_with_active_clear ctx now id changes db =
        (.error (.InvalidInput ("cannot mark plan done; next pending step:\n" ++
          format_step_detail blocker (goals_for_step_with_conn db blocker.id))), db) ∧
      blocker ∈ planStepsRaw db id ∧ blocker.status = StepStatus.Todo.asStr) ∧
    (∀ (id : Int) (changes : StepChanges) (g : Goal),
      changes.status = some StepStatus.Done →
      (∀ t, changes.content = some t → isBlank t = false) →
      next_goal_for_step_with_conn db id = some g →
      update_step ctx now id changes db =
        (.error (.InvalidInput ("cannot mark step done; next pending goal: " ++
          g.content ++ " (id " ++ toString g.id ++ ")")), db) ∧
      g ∈ stepGoalsRaw db id ∧ g.status = GoalStatus.Todo.asStr) :=
  ⟨fun id changes blocker hst ht hc hn =>
    update_plan_done_guard ctx now db id changes blocker hst ht hc hn,
   fun id changes g hst hc hn =>
    update_step_done_guard ctx now db id changes g hst hc hn⟩

/-- C6: activating an existing plan fails with `InvalidInput` naming the
owning session when another session holds it and takeover is false, and
leaves the store unchanged; otherwise it deletes the caller's binding and
the plan's binding, inserts one fresh row binding the calling session to
the plan, and stamps the plan's last-touching session and timestamp. -/
theorem set_active_plan_spec (ctx : Ctx) (now : Nat) (pid : Int) (db : DB) (p : Plan)
    (hp : findPlan db pid = some p) :
    (∀ e, db.active_plans.find? (fun a => a.plan_id == pid) = some e →
      e.session_id ≠ ctx.session_id →
      set_active_plan ctx now pid false db =
        (.error (.InvalidInput ("plan id " ++ toString pid ++
          " is already active in session " ++ e.session_id ++
          " (use --force to take over)")), db)) ∧
    (∀ takeover : Bool,
      (∀ e, db.active_plans.find? (fun a => a.plan_id == pid) = some e →
        e.session_id = ctx.session_id ∨ takeover = true) →
      set_active_plan ctx now pid takeover db =
        (.ok { id := db.next_active_plan_id, session_id := ctx.session_id
               plan_id := pid, updated_at := now },
         setActiveResultDB ctx now pid db)) :=
  ⟨fun e he hne => set_active_plan_conflict ctx now pid db p e hp he hne,
   fun takeover hok => set_active_plan_success ctx now pid takeover db p hp hok⟩

/-! ## concrete fixtures for counterexamples and witnesses -/

/-- The calling session used in concrete runs. -/
def exCtx : Ctx := ⟨"sess"⟩

/-- A Todo plan with id 1. -/
def exPlanTodo : Plan :=
  { id := 1, title := "Plan", content := "Body", status := "todo"
    created_at := 0, updated_at := 0 }

/-- The same plan stored as Done. -/
def exPlanDone : Plan := { exPlanTodo with status := "done" }

/-- A Todo step with id 1 under plan 1. -/
def exStepTodo : Step :=
  { id := 1, plan_id := 1, content := "Step", status := "todo", executor := "ai"
    sort_order := 1, created_at := 0, updated_at := 0 }

/-- The same step stored as Done. -/
def exStepDone : Step := { exStepTodo with status := "done" }

/-- Todo goal A (id 1) under step 1. -/
def exGoalA : Goal :=
  { id := 1, step_id := 1, content := "A", status := "todo"
    created_at := 0, updated_at := 0 }

/-- Todo goal B (id 2) under step 1. -/
def exGoalB : Goal := { exGoalA with id := 2, content := "B" }

/-- Plan 1 checked out by the calling session. -/
def exActiveSess : ActivePlan := { id := 1, session_id := "sess", plan_id := 1, updated_at := 0 }

/-- Plan 1 checked out by a different session. -/
def exActiveOther : ActivePlan := { exActiveSess with session_id := "other" }

/-- Done step under a still-Todo plan, active under the other session. -/
def exDB5 : DB :=
  { plans := [exPlanTodo], steps := [exStepDone], goals := []
    active_plans := [exActiveOther]
    next_plan_id := 2, next_step_id := 2, next_goal_id := 1, next_active_plan_id := 2 }

/-- Same store but the calling session owns the binding. -/
def exDB5w : DB := { exDB5 with active_plans := [exActiveSess] }

/-- The change log of the plan-Done recomputation on `exDB5w`. -/
def exDB5wCh : StatusChanges :=
  { plans := [{ plan_id := 1, from_status := "todo", to_status := "done"
                reason := "all steps are done (1/1)" }]
    active_plans_cleared := [{ plan_id := 1, reason := "plan marked done" }] }

/-- The committed store of the plan-Done recomputation on `exDB5w`. -/
def exDB5wAfter : DB :=
  { plans := [{ exPlanTodo with status := "done", updated_at := 7 }]
    steps := [exStepDone], goals := [], active_plans := []
    next_plan_id := 2, next_step_id := 2, next_goal_id := 1, next_active_plan_id := 2 }

/-- Done plan with one Done step. -/
def exDB1 : DB :=
  { plans := [exPlanDone], steps := [exStepDone], goals := [], active_plans := []
    next_plan_id := 2, next_step_id := 2, next_goal_id := 1, next_active_plan_id := 1 }

/-- Todo plan, Todo step, two Todo goals. -/
def exDB3 : DB :=
  { plans := [exPlanTodo], steps := [exStepTodo], goals := [exGoalA, exGoalB]
    active_plans := []
    next_plan_id := 2, next_step_id := 2, next_goal_id := 3, next_active_plan_id := 1 }

/-- Same configuration with the plan checked out by the calling session. -/
def exDB2 : DB := { exDB3 with active_plans := [exActiveSess], next_active_plan_id := 2 }

/-- C5 counterexample: on `exDB5` the recomputation transitions plan 1 to
Done and deletes the other session's ActivePlan row, yet appends no
`active_plan_cleared` record — refuting the claim that a record is
appended for every cleared row regardless of owner. -/
theorem refresh_plan_done_clear_unlogged_cex :
    refresh_plan_status_with_conn exCtx 7 exDB5 1 =
      .ok ({ plans := [{ plan_id := 1, from_status := "todo", to_status := "done"
                         reason := "all steps are done (1/1)" }]
             active_plans_cleared := [] }, exDB5wAfter) ∧
    exDB5.active_plans = [exActiveOther] ∧ exDB5wAfter.active_plans = [] := by
  decide

/-- Witness: C5's amended theorem applied to the concrete store whose
binding belongs to the calling session. -/
theorem refresh_plan_done_clears_witness :
    (∀ a ∈ exDB5wAfter.active_plans, a.plan_id ≠ 1) ∧
    exDB5wCh.active_plans_cleared =
      (if (exDB5w.active_plans.find? (fun a =>
            a.plan_id == 1 && a.session_id == exCtx.session_id)).isSome
       then [{ plan_id := 1, reason := "plan marked done" }] else []) :=
  refresh_plan_done_clears exCtx 7 exDB5w 1 exDB5wCh exDB5wAfter (by decide)
    { plan_id := 1, from_status := "todo", to_status := "done"
      reason := "all steps are done (1/1)" } (by decide) (by decide)

/-- Witness: both manual-Done guards fire on the concrete store. -/
theorem manual_done_guard_witness :
    (update_plan_with_active_clear exCtx 4 1 { status := some PlanStatus.Done } exDB3 =
      (.error (.InvalidInput ("cannot mark plan done; next pending step:\n" ++
        format_step_detail exStepTodo (goals_for_step_with_conn exDB3 exStepTodo.id))), exDB3) ∧
     exStepTodo ∈ planStepsRaw exDB3 1 ∧ exStepTodo.status = StepStatus.Todo.asStr) ∧
    (update_step exCtx 4 1 { status := some StepStatus.Done } exDB3 =
      (.error (.InvalidInput ("cannot mark step done; next pending goal: " ++
        exGoalA.content ++ " (id " ++ toString exGoalA.id ++ ")")), exDB3) ∧
     exGoalA ∈ stepGoalsRaw exDB3 1 ∧ exGoalA.status = GoalStatus.Todo.asStr) :=
  ⟨(manual_done_guard exCtx 4 exDB3).1 1 { status := some PlanStatus.Done } exStepTodo rfl
      (fun t ht => by simp at ht) (fun t ht => by simp at ht) (by decide),
   (manual_done_guard exCtx 4 exDB3).2 1 { status := some StepStatus.Done } exGoalA rfl
      (fun t ht => by simp at ht) (by decide)⟩

/-- Witness: the activation conflict and the takeover path on `exDB5`. -/
theorem set_active_plan_spec_witness :
    set_active_plan exCtx 4 1 false exDB5 =
      (.error (.InvalidInput ("plan id " ++ toString (1 : Int) ++
        " is already active in session " ++ exActiveOther.session_id ++
        " (use --force to take over)")), exDB5) ∧
    set_active_plan exCtx 4 1 true exDB5 =
      (.ok { id := exDB5.next_active_plan_id, session_id := exCtx.session_id
             plan_id := 1, updated_at := 4 },
       setActiveResultDB exCtx 4 1 exDB5) :=
  ⟨(set_active_plan_spec exCtx 4 1 exDB5 exPlanTodo (by decide)).1 exActiveOther
      (by decide) (by decide),
   (set_active_plan_spec exCtx 4 1 exDB5 exPlanTodo (by decide)).2 true
      (fun e he => Or.inr rfl)⟩

/-- Witness: the two-goal cascade scenario run on the concrete store with
the plan active under the calling session. -/
theorem goal_cascade_scenario_witness :
    (set_goal_status exCtx 5 exGoalA.id .Done exDB2).1 =
      .ok ({ exGoalA with status := GoalStatus.Done.asStr, updated_at := 5 }, {}) ∧
    (set_goal_status exCtx 5 exGoalA.id .Done exDB2).2.steps = [exStepTodo] ∧
    (set_goal_status exCtx 6 exGoalB.id .Done
        (set_goal_status exCtx 5 exGoalA.id .Done exDB2).2).1 =
      .ok ({ exGoalB with status := GoalStatus.Done.asStr, updated_at := 6 },
        { steps := [{ step_id := exStepTodo.id, from_status := StepStatus.Todo.asStr
                      to_status := StepStatus.Done.asStr
                      reason := "all goals are done (2/2)" }]
          plans := [{ plan_id := exPlanTodo.id, from_status := PlanStatus.Todo.asStr
                      to_status := PlanStatus.Done.asStr
                      reason := "all steps are done (1/1)" }]
          active_plans_cleared :=
            if (exDB2.active_plans.find? (fun a =>
                a.plan_id == exPlanTodo.id && a.session_id == exCtx.session_id)).isSome
            then [{ plan_id := exPlanTodo.id, reason := "plan marked done" }] else [] }) :=
  goal_cascade_scenario exCtx 5 6 exDB2 exPlanTodo exStepTodo exGoalA exGoalB
    rfl rfl rfl rfl rfl rfl (by decide) rfl rfl rfl rfl

end PlanPilot
